import Mathlib

/-!
Shallow embedding of `facebookinsights/graph.py`: the `Selection` query
builder, its `PostSelection` and `InsightsSelection` specializations, and the
`Picture` value object.

External collaborators are modelled as follows:
* the date collaborator (`utils.date`): instants are `Int` timestamps;
  `parse_utc` / `timestamp` act on already-parsed inputs and are the identity;
  `utils.date.parse` on insights `end_time` strings is modelled as the
  injection `TimeKey.time` of the timestamp string (parsing is injective on
  the server's canonical timestamp strings);
* the transport collaborator (`utils.api.GraphAPI`): a `get`/`all` call is
  modelled by handing the response data to the function under study, and the
  shape of the request issued is reported by a separate definition;
* Python dicts with string keys are modelled as structures with one field per
  key used by the code, absent keys as `Option`; dicts with computed keys
  (the pivot) as insertion-ordered association lists.
-/

namespace FBInsights

/-- Models `utils.date.COMMON_ERA`, the fixed "beginning of time" sentinel of the
date collaborator.  Only its role as a fixed constant matters here. -/
def COMMON_ERA : Int := 0

/-- The `meta` dict of a `Selection` (graph.py lines 21-24): keys `since` and
`until` are always present (set in `__init__`); `metrics` and `single` are
set only by `InsightsSelection._metrics`. -/
structure SelMeta where
  msince : Int
  muntil : Int
  metrics : Option (List String) := none
  single : Option Bool := none
deriving DecidableEq, Repr

/-- The `params` dict of a `Selection` (graph.py lines 25-27): key `page` is
always present; `since`/`until` are set by `range`; `limit` by
`PostSelection.latest`; `period` by the `InsightsSelection` period methods. -/
structure SelParams where
  page : Bool
  psince : Option Int := none
  puntil : Option Int := none
  limit : Option Nat := none
  period : Option String := none
deriving DecidableEq, Repr

/-- Selection state as set up by `Selection.__init__` (graph.py lines 18-27):
`meta = {since: COMMON_ERA, until: now}`, `params = {page: False}`. -/
def initSel (now : Int) : SelMeta × SelParams :=
  (⟨COMMON_ERA, now, none, none⟩, ⟨false, none, none, none, none⟩)

/-- Body of `Selection.range` (graph.py lines 36-45), acting on the clone the
`@immutable` decorator hands it.  `until` defaults to `datetime.today()`
("now") when omitted (`if not until`: in the embedding the argument is an
`Option`, so only the `None` case of Python truthiness arises).  `parse_utc`
and `timestamp` of the date collaborator are the identity on the `Int`
instants used here. -/
def rangeBody (now : Int) (sin : Int) (unt : Option Int) :
    SelMeta × SelParams → SelMeta × SelParams
  | (m, p) =>
    let u : Int := match unt with
      | none => now
      | some u => u
    ({ m with msince := sin, muntil := u },
     { p with page := true, psince := some sin, puntil := some u })

/-- Body of `Selection.since` (graph.py lines 48-49): `return self.range(date)`. -/
def sinceBody (now : Int) (d : Int) : SelMeta × SelParams → SelMeta × SelParams :=
  rangeBody now d none

/-- Body of `PostSelection.latest` (graph.py lines 62-64). -/
def latestBody (n : Nat) : SelMeta × SelParams → SelMeta × SelParams
  | (m, p) => (m, { p with limit := some n })

/-- The metric argument of the period methods: Python distinguishes a bare
string from a list of strings by `isinstance(ids, list)`. -/
inductive MetricsArg where
  | one_name (s : String)
  | name_list (l : List String)
deriving DecidableEq, Repr

/-- Body of `InsightsSelection._metrics` (graph.py lines 112-120).  Python
truthiness of `if ids:` makes an empty list and an empty string no-ops. -/
def metricsBody (ids : Option MetricsArg) :
    SelMeta × SelParams → SelMeta × SelParams
  | (m, p) =>
    match ids with
    | none => (m, p)
    | some (.name_list l) =>
      if l = [] then (m, p)
      else ({ m with single := some false, metrics := some l }, p)
    | some (.one_name s) =>
      if s = "" then (m, p)
      else ({ m with single := some true, metrics := some [s] }, p)

/-- Body of a period method `daily`/`weekly`/`monthly`/`lifetime`
(graph.py lines 93-110): set `params['period']` and forward to `_metrics`. -/
def periodBody (period : String) (ids : Option MetricsArg) :
    SelMeta × SelParams → SelMeta × SelParams
  | (m, p) => metricsBody ids (m, { p with period := some period })

/-- One builder call on a Selection, with its arguments. -/
inductive BuilderOp where
  | op_range (sin : Int) (unt : Option Int)
  | op_since (d : Int)
  | op_latest (n : Nat)
  | op_daily (ids : Option MetricsArg)
  | op_weekly (ids : Option MetricsArg)
  | op_monthly (ids : Option MetricsArg)
  | op_lifetime (ids : Option MetricsArg)
deriving DecidableEq, Repr

/-- The state transformation a builder call performs on the cloned
`meta`/`params` pair. -/
def applyOp (now : Int) : BuilderOp → SelMeta × SelParams → SelMeta × SelParams
  | .op_range sin unt => rangeBody now sin unt
  | .op_since d => sinceBody now d
  | .op_latest n => latestBody n
  | .op_daily ids => periodBody "day" ids
  | .op_weekly ids => periodBody "week" ids
  | .op_monthly ids => periodBody "days_28" ids
  | .op_lifetime ids => periodBody "lifetime" ids

/-- A chain of builder calls starting from a factory-constructed Selection. -/
def applyOps (now : Int) (ops : List BuilderOp) : SelMeta × SelParams :=
  ops.foldl (fun s op => applyOp now op s) (initSel now)

/-- Whether a builder call sets a date range (`range` directly, `since` via
`range`). -/
def isRangeOp : BuilderOp → Bool
  | .op_range _ _ => true
  | .op_since _ => true
  | _ => false

/-- Embeds `InsightsSelection._has_daterange` (graph.py lines 123-124):
`'since' in self.params or 'until' in self.params`. -/
def hasDaterange (p : SelParams) : Bool :=
  p.psince.isSome || p.puntil.isSome

/-! ## Object-identity model of `clone` and the `@immutable` decorator

Python dicts are mutable heap objects; `Selection.clone` (graph.py lines
29-33) makes a new instance of `self.__class__` and installs `copy.copy`s of
`self.meta` and `self.params` into it.  The `@immutable` decorator (from
`utils.functional`, not part of this file's source) is modelled from the
spec: "builder calls never mutate `self`; they operate on a clone and return
it" — it clones the receiver and runs the method body on the clone.  To state
that the ORIGINAL's dicts are untouched we track dicts in an explicit store
addressed by `Nat` references. -/

/-- The concrete class of a Selection (`self.__class__`). -/
inductive SelClass where
  | postSel
  | insightsSel
deriving DecidableEq, Repr

/-- A store of `meta` and `params` dict objects; `next` is the next fresh
reference (every live reference is `< next`). -/
structure Store where
  metas : Nat → SelMeta
  prms : Nat → SelParams
  next : Nat

/-- A Selection object: its concrete class and references to its two dicts.
(`edge` is a back-reference not touched by any builder call and is omitted.) -/
structure SelObj where
  cls : SelClass
  metaRef : Nat
  paramsRef : Nat
deriving DecidableEq, Repr

/-- Read the dict contents a Selection object currently points at. -/
def readSel (h : Store) (s : SelObj) : SelMeta × SelParams :=
  (h.metas s.metaRef, h.prms s.paramsRef)

/-- Embeds `Selection.clone` (graph.py lines 29-33): construct a fresh instance of
the same concrete class and install independent copies of `meta` and
`params` in it — here, two fresh references holding the current contents. -/
def cloneSel (s : SelObj) (h : Store) : SelObj × Store :=
  (⟨s.cls, h.next, h.next + 1⟩,
   { metas := fun r => if r = h.next then h.metas s.metaRef else h.metas r,
     prms := fun r => if r = h.next + 1 then h.prms s.paramsRef else h.prms r,
     next := h.next + 2 })

/-- Write new dict contents through a Selection object's references
(the in-place `self.meta[...] = ...` / `self.params[...] = ...` mutations a
builder body performs). -/
def writeSel (s : SelObj) (mp : SelMeta × SelParams) (h : Store) : Store :=
  { h with
    metas := fun r => if r = s.metaRef then mp.1 else h.metas r,
    prms := fun r => if r = s.paramsRef then mp.2 else h.prms r }

/-- Modelled from the spec: the `@immutable` decorator of `utils.functional`
(imported at graph.py line 14 and applied to every builder method), whose
source is not in this repository snapshot.  Per the spec, a decorated method
"operates on a clone and returns it": clone the receiver, run the mutating
body on the clone's dicts, return the clone. -/
def runImmutable (body : SelMeta × SelParams → SelMeta × SelParams)
    (s : SelObj) (h : Store) : SelObj × Store :=
  let (s', h') := cloneSel s h
  (s', writeSel s' (body (readSel h' s')) h')

/-- A builder call on a Selection object.  `since` is itself decorated and
calls the decorated `range` on its clone (graph.py lines 47-49), so it
clones twice. -/
def runBuilder (now : Int) : BuilderOp → SelObj → Store → SelObj × Store
  | .op_since d, s, h =>
    runImmutable (rangeBody now d none) (cloneSel s h).1 (cloneSel s h).2
  | op, s, h => runImmutable (applyOp now op) s h

/-! ## Lazy access and memoization (`__getitem__` / `__iter__`)

graph.py lines 51-57.  `get()` issues transport fetches; we model the data a
fetch would return as a fixed list and count fetches. -/

/-- The materialization state of one Selection instance: the `_results`
attribute (absent until `__iter__` first sets it) plus a count of transport
fetches issued so far by this instance's `get()` calls. -/
structure SelAccess where
  res : Option (List Int)
  fetches : Nat
deriving DecidableEq, Repr

/-- A call to the concrete class's `get()`: issues a fetch through the
transport and returns the fetched data. -/
def doGet (data : List Int) (s : SelAccess) : List Int × SelAccess :=
  (data, { s with fetches := s.fetches + 1 })

/-- Embeds `Selection.__getitem__` (graph.py lines 51-52): `return self.get()[key]`.
Python raises `IndexError` out of range; modelled by `Option`. -/
def getitem (data : List Int) (key : Nat) (s : SelAccess) :
    Option Int × SelAccess :=
  let (r, s') := doGet data s
  (r.get? key, s')

/-- Embeds `Selection.__iter__` (graph.py lines 54-57): compute and store
`self._results` on first call, then iterate the stored sequence. -/
def iterSel (data : List Int) (s : SelAccess) : List Int × SelAccess :=
  match s.res with
  | some r => (r, s)
  | none =>
    let (r, s') := doGet data s
    (r, { s' with res := some r })

/-! ## PostSelection.get (graph.py lines 69-88) -/

/-- The fields of a raw feed item that `Post.__init__` (graph.py lines
238-261) reads unconditionally; `created_time`/`updated_time` are
already-parsed instants (`utils.date.parse` is the identity here).  The many
optional fields are irrelevant to the scanning algorithm and omitted. -/
structure RawPost where
  id : String
  ptype : String
  created_time : Int
  updated_time : Int
deriving DecidableEq, Repr

/-- The `Post` value object, restricted to the fields `PostSelection.get`
uses. -/
structure Post where
  id : String
  ptype : String
  created_time : Int
  updated_time : Int
deriving DecidableEq, Repr

/-- Embeds `Post(self.edge, post)` (graph.py line 77, constructor lines 238-261). -/
def mkPost (r : RawPost) : Post :=
  ⟨r.id, r.ptype, r.created_time, r.updated_time⟩

/-- One JSON page of the `posts` resource: its `data` list. -/
structure PostPage where
  data : List RawPost
deriving DecidableEq, Repr

/-- The inner loop of `PostSelection.get` over one page's items (graph.py
lines 76-86): construct a `Post` per item; append it while
`post.created_time >= self.meta['since']`; the first item below the bound
returns the accumulated posts from the whole function (`Bool` reports
whether that early `return` fired). -/
def scanItems (sinceI : Int) : List RawPost → List Post × Bool
  | [] => ([], false)
  | r :: rest =>
    if sinceI ≤ (mkPost r).created_time then
      let (ps, stopped) := scanItems sinceI rest
      ((mkPost r) :: ps, stopped)
    else ([], true)

/-- The page loop of `PostSelection.get` (graph.py lines 74-88), after the
transport call: when `params['page']` is false the single returned page has
been wrapped in a one-element list (line 71-72), so in both cases the loop
sees a list of pages. -/
def postsGet (sinceI : Int) : List PostPage → List Post
  | [] => []
  | pg :: rest =>
    let (ps, stopped) := scanItems sinceI pg.data
    if stopped then ps else ps ++ postsGet sinceI rest

/-! ## InsightsSelection.get (graph.py lines 126-191) -/

/-- The Python exceptions `InsightsSelection.get`/`serialize` can raise:
`NotImplementedError` for too-large ranges (line 144), `ValueError` from
`namedtuple` on duplicate field names (line 178), `TypeError` from calling
the `Row` constructor with a missing or unexpected field (line 182),
`KeyError` from `self.meta['single']` / `self.meta['metrics']` on an absent
key (lines 187-188), `AttributeError` from `getattr(row, metric)` (line 189)
and from `row._asdict()` on a non-namedtuple (line 194). -/
inductive GetError where
  | rangeTooLarge
  | valueError
  | typeError
  | keyError
  | attributeError
deriving DecidableEq, Repr

/-- A time bucket key of the pivot dict: the parsed `end_time` instant
(`utils.date.parse` modelled as the injection of the timestamp string), or
the literal string `'lifetime'` (line 174). -/
inductive TimeKey where
  | time (t : String)
  | lifetime
deriving DecidableEq, Repr

/-- One entry of a dataset's `values` list: a `value` and an optional
`end_time` (absent for lifetime metrics). -/
structure ValueEntry where
  value : Int
  end_time : Option String := none
deriving DecidableEq, Repr

/-- Embeds `row.get('end_time')` followed by the truthiness test `if end_time:`
(lines 170-174): a missing key or an empty string both yield the `'lifetime'`
sentinel; otherwise the string is parsed to an instant. -/
def bucketKey (et : Option String) : TimeKey :=
  match et with
  | some s => if s = "" then .lifetime else .time s
  | none => .lifetime

/-- One per-metric dataset as returned by the API: `name` and `values`. -/
structure Dataset where
  name : String
  values : List ValueEntry
deriving DecidableEq, Repr

/-- One JSON result of a transport call to the `insights` resource: its
`data` list of datasets. -/
structure GraphResult where
  data : List Dataset
deriving DecidableEq, Repr

/-- The transport collaborator's responses for one `InsightsSelection.get`
call: `all_resp ms` is what `self.graph.all('insights', metrics, ...)`
returns for sub-requests `ms` (one result per sub-request), `get_resp` what
`self.graph.get('insights', ...)` returns. -/
structure Transport where
  all_resp : List String → List GraphResult
  get_resp : GraphResult

/-- The shape of the single transport call `InsightsSelection.get` issues
(lines 147-155): one batched call with a sub-request per requested metric,
or one plain (non-batched) call when no metrics were requested. -/
inductive InsightsCall where
  | batched (subrequests : List String)
  | plain
deriving DecidableEq, Repr

/-- Embeds `d[metric] = value` on an insertion-ordered string-keyed dict. -/
def dictSet (l : List (String × Int)) (k : String) (v : Int) :
    List (String × Int) :=
  match l with
  | [] => [(k, v)]
  | (k', v') :: rest =>
    if k' = k then (k, v) :: rest else (k', v') :: dictSet rest k v

/-- Embeds `data.setdefault(end_time, \x7b\x7d)[metric] = value` (line 176) on the
insertion-ordered pivot dict. -/
def dataSet (d : List (TimeKey × List (String × Int))) (t : TimeKey)
    (k : String) (v : Int) : List (TimeKey × List (String × Int)) :=
  match d with
  | [] => [(t, [(k, v)])]
  | (t', m) :: rest =>
    if t' = t then (t, dictSet m k v) :: rest else (t', m) :: dataSet rest t k v

/-- The pivot loop (lines 161-176): accumulate the `fields` list (starting
`['end_time']`, appending each dataset's metric name) and the bucket dict
`data` mapping each time key to a metric-name → value dict. -/
def pivotDatasets (ds : List Dataset) :
    List String × List (TimeKey × List (String × Int)) :=
  ds.foldl
    (fun acc dataset =>
      (acc.1 ++ [dataset.name],
       dataset.values.foldl
         (fun d row => dataSet d (bucketKey row.end_time) dataset.name row.value)
         acc.2))
    (["end_time"], [])

/-- A materialized `Row` namedtuple: its `end_time` field and its remaining
fields with their values, in field order. -/
structure RowT where
  end_time : TimeKey
  entries : List (String × Int)
deriving DecidableEq, Repr

/-- Embeds `Row(end_time=time, **values)` (line 182) for `Row = namedtuple('Row',
fields)`: succeeds iff the keyword arguments cover exactly the fields —
a field with no argument, or an argument that is no field, is a
`TypeError` (`none`). -/
def mkRow (fields : List String) (t : TimeKey) (vals : List (String × Int)) :
    Option RowT :=
  let rest := fields.drop 1
  if (rest.all fun f => (vals.lookup f).isSome) &&
     (vals.all fun kv => rest.contains kv.1) then
    some ⟨t, rest.map fun f => (f, (vals.lookup f).getD 0)⟩
  else none

/-- The row-materialization loop (lines 180-182): one `Row` per bucket of the
pivot dict, aborting with `TypeError` on the first bucket whose values do
not match the field set. -/
def buildRows (fields : List String) :
    List (TimeKey × List (String × Int)) → Except GetError (List RowT)
  | [] => Except.ok []
  | tv :: rest =>
    match mkRow fields tv.1 tv.2 with
    | some r => (buildRows fields rest).map fun rs => r :: rs
    | none => Except.error GetError.typeError

/-- Exact ceiling of the quotient `a / b` of integers (for positive `b`),
`-((-a) / b)` with floor division: the value `math.ceil` returns on the
exact quotient. -/
def ceilDiv (a b : Int) : Int := -((-a) / b)

/-- The requested span in days (lines 129-133): with a date range,
`math.ceil(total_seconds / 60 / 60 / 24)` — the exact ceiling of the
difference of the `meta` instants over 86400 seconds; otherwise the API's
implicit 3-day default. -/
def insightsDays (m : SelMeta) (p : SelParams) : Int :=
  if hasDaterange p then ceilDiv (m.muntil - m.msince) 86400 else 3

/-- Which transport call `InsightsSelection.get` issues (lines 147-155):
none at all when the range check (line 143) raises first; otherwise one
batched call with a sub-request per metric in `meta['metrics']`, or one
plain call when no metrics were requested. -/
def insightsCallOf (m : SelMeta) (p : SelParams) : Option InsightsCall :=
  if insightsDays m p > 31 * 3 then none
  else some (match m.metrics with
    | some ms => .batched ms
    | none => .plain)

/-- The result of `InsightsSelection.get`: the full sequence of Rows, or the
simplified plain value list when a single bare metric name was requested. -/
inductive InsightsResult where
  | rows (rs : List RowT)
  | values (vs : List Int)
deriving DecidableEq, Repr

/-- Embeds `[getattr(row, metric) for row in rows]` (line 189): `getattr` is an
`AttributeError` when `metric` is not a field of a row.  (`getattr` would
also resolve the name `end_time` itself; that corner is unreachable from
`insightsGet`, because a metric named `end_time` duplicates the leading
field and `namedtuple` already raised `ValueError` at `Row` creation, in
the source and in the embedding alike.) -/
def extractMetric (metric : String) : List RowT → Except GetError (List Int)
  | [] => Except.ok []
  | r :: rest =>
    match r.entries.lookup metric with
    | some v => (extractMetric metric rest).map fun vs => v :: vs
    | none => Except.error GetError.attributeError

/-- The single-metric simplification (lines 184-191): read
`self.meta['single']` (a `KeyError` when the key was never set); when truthy,
read `metric = self.meta['metrics'][0]` (a `KeyError` when `metrics` is
absent — unreachable, `_metrics` always sets both — and modelling the
`IndexError` on an empty list the same way) and return the extracted value
list; otherwise return the rows. -/
def shapeResult (m : SelMeta) (rows : List RowT) :
    Except GetError InsightsResult :=
  match m.single with
  | none => Except.error GetError.keyError
  | some false => Except.ok (InsightsResult.rows rows)
  | some true =>
    match m.metrics with
    | none => Except.error GetError.keyError
    | some ms =>
      match ms.head? with
      | none => Except.error GetError.keyError
      | some metric =>
        (extractMetric metric rows).map InsightsResult.values

/-- Embeds `InsightsSelection.get` (graph.py lines 126-191): range check, transport
call (responses supplied by `tr`), flattening of the per-metric datasets,
pivot, row materialization (`namedtuple('Row', fields)` raises `ValueError`
on duplicate field names before any row is built), and single-metric
shaping. -/
def insightsGet (m : SelMeta) (p : SelParams) (tr : Transport) :
    Except GetError InsightsResult :=
  if insightsDays m p > 31 * 3 then Except.error GetError.rangeTooLarge
  else
    let results : List GraphResult :=
      match m.metrics with
      | some ms => tr.all_resp ms
      | none => [tr.get_resp]
    let datasets := results.flatMap GraphResult.data
    let (fields, data) := pivotDatasets datasets
    if fields.Nodup then
      (buildRows fields data).bind (shapeResult m)
    else Except.error GetError.valueError

/-- Embeds `row._asdict()` on each element of `self.get()` (graph.py lines
193-194): on a `Row` namedtuple it yields the complete field → value
mapping — `end_time` plus the metric entries, which is exactly the content
of a `RowT`; on a plain value (the single-metric format) there is no
`_asdict` attribute and an `AttributeError` is raised — except that an
empty result list has no elements to call it on. -/
def serializeSel (m : SelMeta) (p : SelParams) (tr : Transport) :
    Except GetError (List RowT) :=
  (insightsGet m p tr).bind fun res =>
    match res with
    | .rows rs => Except.ok rs
    | .values [] => Except.ok []
    | .values (_ :: _) => Except.error GetError.attributeError

/-! ## Picture (graph.py lines 215-230) -/

/-- The observable attributes `Picture.__init__` sets: `url` (the raw
string), `origin`, optional `width`/`height` (never set on the fallback
path), and `basename`. -/
structure PictureData where
  url : String
  origin : String
  width : Option String := none
  height : Option String := none
  basename : String
deriving DecidableEq, Repr

/-- Embeds `qs[k]` on the parsed query-string dict: `KeyError` when absent.
`urlparse.parse_qs` only maps present keys to non-empty value lists, so the
subsequent `[0]` is modelled by `getD`. -/
def qsIndex (qs : List (String × List String)) (k : String) :
    Except GetError String :=
  match qs.lookup k with
  | some vs => Except.ok (vs.getD 0 "")
  | none => Except.error GetError.keyError

/-- Embeds `Picture.__init__` (graph.py lines 216-230), taking the already-parsed
query dict `qs` of the raw URL (the URL collaborator's `parse_qs` output):
when `'url' in self.qs`, read `origin = qs['url'][0]`, `width = qs['w'][0]`,
`height = qs['h'][0]` in that order — each a `KeyError` if the key is
absent; otherwise fall back to the whole string as origin with no
dimensions.  `basename` is the last `/`-separated component of the origin. -/
def mkPicture (raw : String) (qs : List (String × List String)) :
    Except GetError PictureData :=
  if (qs.lookup "url").isSome then
    (qsIndex qs "url").bind fun origin =>
      (qsIndex qs "w").bind fun w =>
        (qsIndex qs "h").bind fun h =>
          Except.ok ⟨raw, origin, some w, some h,
            (origin.splitOn "/").getLastD ""⟩
  else
    Except.ok ⟨raw, raw, none, none, (raw.splitOn "/").getLastD ""⟩

/-! ## Theorems -/

/-- The item scan of one page accepts the longest prefix of in-range items
and reports whether it hit an out-of-range item. -/
theorem scanItems_eq (sinceI : Int) (items : List RawPost) :
    scanItems sinceI items =
      ((items.takeWhile fun r => decide (sinceI ≤ r.created_time)).map mkPost,
       !items.all fun r => decide (sinceI ≤ r.created_time)) := by
  induction items with
  | nil => simp [scanItems]
  | cons r rest ih =>
    by_cases h : sinceI ≤ r.created_time
    · simp [scanItems, mkPost, h, ih]
    · simp [scanItems, mkPost, h]

/-- Behaviour of `takeWhile` over an append when every element of the prefix passes. -/
theorem takeWhile_append_of_all {α : Type} (p : α → Bool) (xs ys : List α)
    (h : xs.all p = true) :
    (xs ++ ys).takeWhile p = xs ++ ys.takeWhile p := by
  induction xs with
  | nil => simp
  | cons x xs ih =>
    simp only [List.all_cons, Bool.and_eq_true] at h
    simp [List.takeWhile_cons, h.1, ih h.2]

/-- Behaviour of `takeWhile` over an append when some element of the prefix fails. -/
theorem takeWhile_append_of_stop {α : Type} (p : α → Bool) (xs ys : List α)
    (h : xs.all p = false) :
    (xs ++ ys).takeWhile p = xs.takeWhile p := by
  induction xs with
  | nil => simp at h
  | cons x xs ih =>
    by_cases hx : p x
    · simp only [List.all_cons, hx, Bool.true_and] at h
      simp [List.takeWhile_cons, hx, ih h]
    · simp [List.takeWhile_cons, hx]

/-- A list all of whose elements pass is its own `takeWhile`. -/
theorem takeWhile_of_all {α : Type} (p : α → Bool) (xs : List α)
    (h : xs.all p = true) : xs.takeWhile p = xs := by
  induction xs with
  | nil => simp
  | cons x xs ih =>
    simp only [List.all_cons, Bool.and_eq_true] at h
    simp [List.takeWhile_cons, h.1, ih h.2]

/-- C1: `PostSelection.get` scans pages in order and items within each page
in order, constructing a `Post` per item; it returns exactly the posts of
the longest prefix of in-order items whose `created_time` is at or above
`meta['since']` — the first item below the bound terminates the whole fetch
with the posts accepted so far; in particular a below-bound first item on
the first page yields the empty list, not an error. -/
theorem postSelection_get_scan (sinceI : Int) (pages : List PostPage) :
    postsGet sinceI pages =
      ((pages.flatMap PostPage.data).takeWhile
        (fun r => decide (sinceI ≤ r.created_time))).map mkPost
    ∧ (∀ (r : RawPost) (items : List RawPost) (rest : List PostPage),
        r.created_time < sinceI →
          postsGet sinceI (⟨r :: items⟩ :: rest) = []) := by
  constructor
  · induction pages with
    | nil => simp [postsGet]
    | cons pg rest ih =>
      rw [postsGet, scanItems_eq]
      by_cases h : pg.data.all (fun r => decide (sinceI ≤ r.created_time))
      · simp only [h, Bool.not_true, if_neg (Bool.false_ne_true), ih,
          List.flatMap_cons,
          takeWhile_append_of_all _ _ _ h, List.map_append,
          takeWhile_of_all _ _ h]
      · rw [Bool.not_eq_true] at h
        simp [h, List.flatMap_cons, takeWhile_append_of_stop _ _ _ h]
  · intro r items rest hr
    rw [postsGet, scanItems_eq]
    have hp : (decide (sinceI ≤ r.created_time)) = false := by
      simp [not_le.mpr hr]
    simp [List.takeWhile_cons, hp]

/-- Witness for C1: a first-page first item below the bound gives `[]`. -/
theorem postSelection_get_scan_witness :
    postsGet 5 [⟨[⟨"a", "status", 3, 0⟩]⟩, ⟨[⟨"b", "status", 9, 0⟩]⟩] = [] :=
  (postSelection_get_scan 5 [⟨[⟨"a", "status", 3, 0⟩]⟩,
    ⟨[⟨"b", "status", 9, 0⟩]⟩]).2 ⟨"a", "status", 3, 0⟩ [] [⟨[⟨"b", "status", 9, 0⟩]⟩]
    (by decide)

/-- C7: `since(d)` performs exactly the state transformation of
`range(d, until)` with `until` defaulted to the current moment, so the
resulting Selections have the same `meta` instants, the same `params`
entries, and (their state being equal) the same subsequent `get()`
behaviour. -/
theorem since_eq_range_now (now d : Int) (s : SelMeta × SelParams) :
    applyOp now (.op_since d) s = applyOp now (.op_range d (some now)) s := by
  cases s; rfl

/-- C8 counterexample: two consecutive indexing accesses on a fresh
Selection issue two transport fetches and leave nothing cached —
`__getitem__` calls `self.get()` anew each time, so repeated indexing does
not reuse a cached result as the claim states. -/
theorem getitem_not_memoized :
    (getitem [5] 0 (getitem [5] 0 ⟨none, 0⟩).2).2 = ⟨none, 2⟩ := rfl

/-- The function `ceilDiv` computes the mathematical ceiling of the rational quotient. -/
theorem ceilDiv_eq_ceil (a : Int) (b : ℕ) :
    ceilDiv a (b : Int) = ⌈(a : ℚ) / (b : ℚ)⌉ := by
  unfold ceilDiv
  rw [show ((a : ℚ)) = -((-a : ℤ) : ℚ) by push_cast; ring,
    neg_div, Int.ceil_neg, Rat.floor_intCast_div_natCast]

/-- The loop `buildRows` can only fail with a `TypeError`. -/
theorem buildRows_error_eq (fields : List String)
    (data : List (TimeKey × List (String × Int))) (e : GetError)
    (h : buildRows fields data = Except.error e) : e = GetError.typeError := by
  induction data with
  | nil => simp [buildRows] at h
  | cons tv rest ih =>
    rw [buildRows] at h
    cases hr : mkRow fields tv.1 tv.2 with
    | none => rw [hr] at h; exact (Except.error.injEq _ _ ▸ h).symm ▸ rfl
    | some r =>
      rw [hr] at h
      cases hb : buildRows fields rest with
      | error e' =>
        rw [hb] at h
        simp only [Except.map] at h
        cases h
        exact ih hb
      | ok rs => rw [hb] at h; simp [Except.map] at h

/-- The loop `extractMetric` can only fail with an `AttributeError`. -/
theorem extractMetric_error_eq (metric : String) (rows : List RowT)
    (e : GetError) (h : extractMetric metric rows = Except.error e) :
    e = GetError.attributeError := by
  induction rows with
  | nil => simp [extractMetric] at h
  | cons r rest ih =>
    rw [extractMetric] at h
    cases hl : r.entries.lookup metric with
    | none => rw [hl] at h; cases h; rfl
    | some v =>
      rw [hl] at h
      cases hb : extractMetric metric rest with
      | error e' =>
        rw [hb] at h
        simp only [Except.map] at h
        cases h
        exact ih hb
      | ok vs => rw [hb] at h; simp [Except.map] at h

/-- The single-metric shaping step never raises the range error. -/
theorem shapeResult_ne_rangeTooLarge (m : SelMeta) (rows : List RowT) :
    shapeResult m rows ≠ Except.error GetError.rangeTooLarge := by
  unfold shapeResult
  cases hs : m.single with
  | none => simp
  | some b =>
    cases b with
    | false => simp
    | true =>
      cases hm : m.metrics with
      | none => simp
      | some ms =>
        cases ms with
        | nil => simp
        | cons metric more =>
          simp only [List.head?_cons]
          cases he : extractMetric metric rows with
          | error e =>
            have := extractMetric_error_eq metric rows e he
            simp [Except.map, this]
          | ok vs => simp [Except.map]

/-- Everything after the range check never raises the range error. -/
theorem insights_tail_ne_rangeTooLarge (m : SelMeta) (fields : List String)
    (data : List (TimeKey × List (String × Int))) :
    (if fields.Nodup then (buildRows fields data).bind (shapeResult m)
     else Except.error GetError.valueError)
      ≠ Except.error GetError.rangeTooLarge := by
  split
  · cases hb : buildRows fields data with
    | error e =>
      have := buildRows_error_eq fields data e hb
      simp [Except.bind, this]
    | ok rows =>
      simp only [Except.bind]
      exact shapeResult_ne_rangeTooLarge m rows
  · simp

/-- C2: `InsightsSelection.get` raises the range-too-large error exactly
when the requested span in days — `ceil((until - since) / 86400)` with an
explicit date range, 3 (the API's implicit window) without one — exceeds
93; below that bound the range error is never produced, so a 90-day span
passes the check while a 100-day span fails it, and the error surfaces
directly as the call's outcome. -/
theorem insights_range_too_large_iff (m : SelMeta) (p : SelParams)
    (tr : Transport) :
    insightsGet m p tr = Except.error GetError.rangeTooLarge ↔
      93 < (if hasDaterange p then
              ⌈((m.muntil - m.msince : Int) : ℚ) / 86400⌉
            else 3) := by
  have hb := ceilDiv_eq_ceil (m.muntil - m.msince) 86400
  norm_num at hb
  have hd : insightsDays m p =
      (if hasDaterange p then ⌈((m.muntil - m.msince : Int) : ℚ) / 86400⌉
       else 3) := by
    unfold insightsDays
    rw [hb]
    norm_cast
  rw [← hd]
  unfold insightsGet
  by_cases h : insightsDays m p > 31 * 3
  · simp only [if_pos h]
    constructor
    · intro _; omega
    · intro _; trivial
  · simp only [if_neg h]
    constructor
    · intro hres
      exact absurd hres (insights_tail_ne_rangeTooLarge m _ _)
    · intro h93; omega

/-- The helper `_metrics` only touches `meta`, never `params`. -/
theorem metricsBody_snd (ids : Option MetricsArg) (m : SelMeta) (p : SelParams) :
    (metricsBody ids (m, p)).2 = p := by
  cases ids with
  | none => rfl
  | some a =>
    cases a with
    | one_name s => by_cases h : s = "" <;> simp [metricsBody, h]
    | name_list l => by_cases h : l = [] <;> simp [metricsBody, h]

/-- A period method only sets `params['period']` on top of `_metrics`. -/
theorem periodBody_snd (period : String) (ids : Option MetricsArg)
    (m : SelMeta) (p : SelParams) :
    (periodBody period ids (m, p)).2 = { p with period := some period } := by
  simp [periodBody, metricsBody_snd]

/-- One builder call's effect on the `page`/`since`/`until` wire
parameters: a range-setting call (`range`, `since`) turns them all on, any
other call leaves them as they were. -/
theorem applyOp_range_flags (now : Int) (op : BuilderOp)
    (s : SelMeta × SelParams) :
    ((applyOp now op s).2.page = (s.2.page || isRangeOp op))
    ∧ ((applyOp now op s).2.psince.isSome = (s.2.psince.isSome || isRangeOp op))
    ∧ ((applyOp now op s).2.puntil.isSome = (s.2.puntil.isSome || isRangeOp op)) := by
  cases s with
  | mk m p =>
    cases op with
    | op_range sin unt => simp [applyOp, rangeBody, isRangeOp]
    | op_since d => simp [applyOp, sinceBody, rangeBody, isRangeOp]
    | op_latest n => simp [applyOp, latestBody, isRangeOp]
    | op_daily ids => simp [applyOp, periodBody_snd, isRangeOp]
    | op_weekly ids => simp [applyOp, periodBody_snd, isRangeOp]
    | op_monthly ids => simp [applyOp, periodBody_snd, isRangeOp]
    | op_lifetime ids => simp [applyOp, periodBody_snd, isRangeOp]

/-- Folded version of `applyOp_range_flags` over a chain of builder calls. -/
theorem applyOps_range_flags (now : Int) (ops : List BuilderOp)
    (s : SelMeta × SelParams) :
    (((ops.foldl (fun t op => applyOp now op t) s).2.page
        = (s.2.page || ops.any isRangeOp))
    ∧ ((ops.foldl (fun t op => applyOp now op t) s).2.psince.isSome
        = (s.2.psince.isSome || ops.any isRangeOp))
    ∧ ((ops.foldl (fun t op => applyOp now op t) s).2.puntil.isSome
        = (s.2.puntil.isSome || ops.any isRangeOp))) := by
  induction ops generalizing s with
  | nil => simp
  | cons op rest ih =>
    simp only [List.foldl_cons, List.any_cons]
    have h1 := applyOp_range_flags now op s
    have h2 := ih (applyOp now op s)
    refine ⟨?_, ?_, ?_⟩
    · rw [h2.1, h1.1, Bool.or_assoc]
    · rw [h2.2.1, h1.2.1, Bool.or_assoc]
    · rw [h2.2.2, h1.2.2, Bool.or_assoc]

/-- C6: over every chain of builder calls from a factory-constructed
Selection, `params['page']` is true exactly when a range-setting call
(`range`/`since`) occurred in the chain, which is also exactly when
`since`/`until` are present in `params`; a fresh Selection starts with
`page = false`. -/
theorem page_iff_daterange (now : Int) (ops : List BuilderOp) :
    (((applyOps now ops).2.page = true) ↔ (ops.any isRangeOp = true))
    ∧ ((applyOps now ops).2.page = hasDaterange (applyOps now ops).2)
    ∧ ((initSel now).2.page = false) := by
  have h := applyOps_range_flags now ops (initSel now)
  unfold applyOps
  refine ⟨?_, ?_, rfl⟩
  · rw [h.1]; simp [initSel]
  · unfold hasDaterange
    rw [h.1, h.2.1, h.2.2]
    simp [initSel]

/-- The method `clone` allocates fresh dict objects holding the receiver's contents and
leaves every existing object untouched. -/
theorem cloneSel_props (s : SelObj) (h : Store) :
    (cloneSel s h).1 = ⟨s.cls, h.next, h.next + 1⟩
    ∧ (cloneSel s h).2.next = h.next + 2
    ∧ (∀ r, r < h.next → (cloneSel s h).2.metas r = h.metas r)
    ∧ (∀ r, r < h.next → (cloneSel s h).2.prms r = h.prms r)
    ∧ readSel (cloneSel s h).2 (cloneSel s h).1 = readSel h s := by
  refine ⟨rfl, rfl, ?_, ?_, ?_⟩
  · intro r hr
    have : r ≠ h.next := by omega
    simp [cloneSel, this]
  · intro r hr
    have : r ≠ h.next + 1 := by omega
    simp [cloneSel, this]
  · simp [cloneSel, readSel]

/-- A decorated builder call returns the fresh clone, with the body's
transformation applied to the clone's dicts, and leaves every existing dict
object untouched. -/
theorem runImmutable_props (body : SelMeta × SelParams → SelMeta × SelParams)
    (s : SelObj) (h : Store) :
    (runImmutable body s h).1 = ⟨s.cls, h.next, h.next + 1⟩
    ∧ (runImmutable body s h).2.next = h.next + 2
    ∧ (∀ r, r < h.next → (runImmutable body s h).2.metas r = h.metas r)
    ∧ (∀ r, r < h.next → (runImmutable body s h).2.prms r = h.prms r)
    ∧ readSel (runImmutable body s h).2 (runImmutable body s h).1
        = body (readSel h s) := by
  refine ⟨rfl, rfl, ?_, ?_, ?_⟩
  · intro r hr
    have h1 : r ≠ h.next := by omega
    simp [runImmutable, cloneSel, writeSel, h1]
  · intro r hr
    have h1 : r ≠ h.next + 1 := by omega
    simp [runImmutable, cloneSel, writeSel, h1]
  · simp [runImmutable, cloneSel, writeSel, readSel]

/-- C5: every builder call (`range`, `since`, `latest`, `daily`, `weekly`,
`monthly`, `lifetime`) on a Selection object returns a NEW Selection of the
same concrete class whose `meta` and `params` are independently allocated
copies carrying the call's transformation, while the original object's
`meta` and `params` dicts are bit-for-bit unchanged.  (The `@immutable`
decorator itself is modelled from the spec, its source living outside this
repository snapshot.) -/
theorem builder_call_clones (now : Int) (op : BuilderOp) (s : SelObj)
    (h : Store) (hm : s.metaRef < h.next) (hp : s.paramsRef < h.next) :
    ((runBuilder now op s h).1.cls = s.cls)
    ∧ ((runBuilder now op s h).1.metaRef ≠ s.metaRef)
    ∧ ((runBuilder now op s h).1.paramsRef ≠ s.paramsRef)
    ∧ ((runBuilder now op s h).2.metas s.metaRef = h.metas s.metaRef)
    ∧ ((runBuilder now op s h).2.prms s.paramsRef = h.prms s.paramsRef)
    ∧ (readSel (runBuilder now op s h).2 (runBuilder now op s h).1
        = applyOp now op (readSel h s)) := by
  cases op with
  | op_since d =>
    simp only [runBuilder]
    have hc := cloneSel_props s h
    have hr := runImmutable_props (rangeBody now d none)
      (cloneSel s h).1 (cloneSel s h).2
    refine ⟨?_, ?_, ?_, ?_, ?_, ?_⟩
    · rw [hr.1]
      show (cloneSel s h).1.cls = s.cls
      rw [hc.1]
    · rw [hr.1]
      show (cloneSel s h).2.next ≠ s.metaRef
      rw [hc.2.1]
      omega
    · rw [hr.1]
      show (cloneSel s h).2.next + 1 ≠ s.paramsRef
      rw [hc.2.1]
      omega
    · rw [hr.2.2.1 s.metaRef (by rw [hc.2.1]; omega), hc.2.2.1 s.metaRef hm]
    · rw [hr.2.2.2.1 s.paramsRef (by rw [hc.2.1]; omega),
        hc.2.2.2.1 s.paramsRef hp]
    · rw [hr.2.2.2.2, hc.2.2.2.2]
      rfl
  | op_range sin unt =>
    simp only [runBuilder]
    have hr := runImmutable_props (applyOp now (.op_range sin unt)) s h
    refine ⟨?_, ?_, ?_, hr.2.2.1 s.metaRef hm,
      hr.2.2.2.1 s.paramsRef hp, hr.2.2.2.2⟩
    · rw [hr.1]
    · rw [hr.1]; show h.next ≠ s.metaRef; omega
    · rw [hr.1]; show h.next + 1 ≠ s.paramsRef; omega
  | op_latest n =>
    simp only [runBuilder]
    have hr := runImmutable_props (applyOp now (.op_latest n)) s h
    refine ⟨?_, ?_, ?_, hr.2.2.1 s.metaRef hm,
      hr.2.2.2.1 s.paramsRef hp, hr.2.2.2.2⟩
    · rw [hr.1]
    · rw [hr.1]; show h.next ≠ s.metaRef; omega
    · rw [hr.1]; show h.next + 1 ≠ s.paramsRef; omega
  | op_daily ids =>
    simp only [runBuilder]
    have hr := runImmutable_props (applyOp now (.op_daily ids)) s h
    refine ⟨?_, ?_, ?_, hr.2.2.1 s.metaRef hm,
      hr.2.2.2.1 s.paramsRef hp, hr.2.2.2.2⟩
    · rw [hr.1]
    · rw [hr.1]; show h.next ≠ s.metaRef; omega
    · rw [hr.1]; show h.next + 1 ≠ s.paramsRef; omega
  | op_weekly ids =>
    simp only [runBuilder]
    have hr := runImmutable_props (applyOp now (.op_weekly ids)) s h
    refine ⟨?_, ?_, ?_, hr.2.2.1 s.metaRef hm,
      hr.2.2.2.1 s.paramsRef hp, hr.2.2.2.2⟩
    · rw [hr.1]
    · rw [hr.1]; show h.next ≠ s.metaRef; omega
    · rw [hr.1]; show h.next + 1 ≠ s.paramsRef; omega
  | op_monthly ids =>
    simp only [runBuilder]
    have hr := runImmutable_props (applyOp now (.op_monthly ids)) s h
    refine ⟨?_, ?_, ?_, hr.2.2.1 s.metaRef hm,
      hr.2.2.2.1 s.paramsRef hp, hr.2.2.2.2⟩
    · rw [hr.1]
    · rw [hr.1]; show h.next ≠ s.metaRef; omega
    · rw [hr.1]; show h.next + 1 ≠ s.paramsRef; omega
  | op_lifetime ids =>
    simp only [runBuilder]
    have hr := runImmutable_props (applyOp now (.op_lifetime ids)) s h
    refine ⟨?_, ?_, ?_, hr.2.2.1 s.metaRef hm,
      hr.2.2.2.1 s.paramsRef hp, hr.2.2.2.2⟩
    · rw [hr.1]
    · rw [hr.1]; show h.next ≠ s.metaRef; omega
    · rw [hr.1]; show h.next + 1 ≠ s.paramsRef; omega

/-- Witness for C5: one `range` call on a valid two-object store keeps the
class and leaves the original's `meta` dict unchanged. -/
theorem builder_call_clones_witness :
    ((runBuilder 0 (BuilderOp.op_range 1 none) ⟨SelClass.postSel, 0, 1⟩
        ⟨fun _ => ⟨0, 0, none, none⟩, fun _ => ⟨false, none, none, none, none⟩,
         2⟩).1.cls = SelClass.postSel)
    ∧ ((runBuilder 0 (BuilderOp.op_range 1 none) ⟨SelClass.postSel, 0, 1⟩
        ⟨fun _ => ⟨0, 0, none, none⟩, fun _ => ⟨false, none, none, none, none⟩,
         2⟩).2.metas 0 = ⟨0, 0, none, none⟩) :=
  ⟨(builder_call_clones 0 (BuilderOp.op_range 1 none) ⟨SelClass.postSel, 0, 1⟩
      ⟨fun _ => ⟨0, 0, none, none⟩, fun _ => ⟨false, none, none, none, none⟩, 2⟩
      (by decide) (by decide)).1,
   (builder_call_clones 0 (BuilderOp.op_range 1 none) ⟨SelClass.postSel, 0, 1⟩
      ⟨fun _ => ⟨0, 0, none, none⟩, fun _ => ⟨false, none, none, none, none⟩, 2⟩
      (by decide) (by decide)).2.2.2.1⟩

/-- C3 counterexample: for metrics `["a","b"]` whose datasets pivot to
buckets `{t1: {a:1}, t2: {a:2, b:3}}`, `get()` does NOT produce two Rows —
the `Row` constructor is called for bucket `t1` without its `b` field and
the fetch aborts with a `TypeError`. -/
theorem insights_missing_bucket_metric_typeerror :
    insightsGet ⟨0, 86400, some ["a", "b"], some false⟩
      ⟨true, some 0, some 86400, none, none⟩
      ⟨fun ms => if ms = ["a", "b"]
        then [⟨[⟨"a", [⟨1, some "t1"⟩, ⟨2, some "t2"⟩]⟩]⟩,
              ⟨[⟨"b", [⟨3, some "t2"⟩]⟩]⟩]
        else [], ⟨[]⟩⟩
      = Except.error GetError.typeError := rfl

/-- C3 amended: in the claim's scenario — metrics `["a","b"]`, buckets
`{t1: {a:1}, t2: {a:2, b:3}}` — `get()` raises a `TypeError` because bucket
t1 lacks metric b (a missing metric aborts the fetch; it is not defaulted).
When every bucket carries every requested metric, `get()` produces one Row
per bucket, all sharing the field order `[end_time, a, b]`, and the pivot
keys buckets by the parsed `end_time` instant — or by the literal sentinel
`'lifetime'` when a value row has no `end_time`. -/
theorem insights_pivot_rows (va1 va2 vb1 vb2 : Int) (m : SelMeta)
    (p : SelParams) (tr : Transport)
    (hm : m.metrics = some ["a", "b"]) (hs : m.single = some false)
    (hdays : insightsDays m p ≤ 93)
    (htr : tr.all_resp ["a", "b"] =
      [⟨[⟨"a", [⟨va1, some "t1"⟩, ⟨va2, some "t2"⟩]⟩]⟩,
       ⟨[⟨"b", [⟨vb1, some "t1"⟩, ⟨vb2, some "t2"⟩]⟩]⟩]) :
    (insightsGet m p tr = Except.ok (InsightsResult.rows
        [⟨.time "t1", [("a", va1), ("b", vb1)]⟩,
         ⟨.time "t2", [("a", va2), ("b", vb2)]⟩]))
    ∧ ((pivotDatasets ((tr.all_resp ["a", "b"]).flatMap GraphResult.data)).1
        = ["end_time", "a", "b"])
    ∧ (insightsGet ⟨0, 86400, some ["lt"], some false⟩
        ⟨true, some 0, some 86400, none, none⟩
        ⟨fun ms => if ms = ["lt"] then [⟨[⟨"lt", [⟨7, none⟩]⟩]⟩] else [],
         ⟨[]⟩⟩
        = Except.ok (InsightsResult.rows [⟨.lifetime, [("lt", 7)]⟩])) := by
  have hnot : ¬ insightsDays m p > 31 * 3 := by omega
  refine ⟨?_, ?_, rfl⟩
  · unfold insightsGet
    rw [if_neg hnot]
    simp only [hm, htr]
    simp [pivotDatasets, dataSet, dictSet, bucketKey, buildRows, mkRow,
      shapeResult, hs, Except.bind, Except.map, List.lookup]
  · rw [htr]
    simp [pivotDatasets]

/-- Witness for C3's amended theorem: the complete two-metric scenario with
values 1, 2, 4, 3 yields the two Rows. -/
theorem insights_pivot_rows_witness :
    insightsGet ⟨0, 86400, some ["a", "b"], some false⟩
      ⟨true, some 0, some 86400, none, none⟩
      ⟨fun ms => if ms = ["a", "b"]
        then [⟨[⟨"a", [⟨1, some "t1"⟩, ⟨2, some "t2"⟩]⟩]⟩,
              ⟨[⟨"b", [⟨4, some "t1"⟩, ⟨3, some "t2"⟩]⟩]⟩]
        else [], ⟨[]⟩⟩
      = Except.ok (InsightsResult.rows
        [⟨.time "t1", [("a", 1), ("b", 4)]⟩,
         ⟨.time "t2", [("a", 2), ("b", 3)]⟩]) :=
  (insights_pivot_rows 1 2 4 3 ⟨0, 86400, some ["a", "b"], some false⟩
    ⟨true, some 0, some 86400, none, none⟩
    ⟨fun ms => if ms = ["a", "b"]
      then [⟨[⟨"a", [⟨1, some "t1"⟩, ⟨2, some "t2"⟩]⟩]⟩,
            ⟨[⟨"b", [⟨4, some "t1"⟩, ⟨3, some "t2"⟩]⟩]⟩]
      else [], ⟨[]⟩⟩
    rfl rfl (by decide) rfl).1

/-- C4 (evidence of the code bug): with no metrics requested the call is
the single non-batched one, but `get()` then raises a `KeyError` reading
`self.meta['single']` — which `_metrics` never set — instead of returning
the full sequence of Rows. -/
theorem insights_no_metrics_keyerror (m : SelMeta) (p : SelParams)
    (tr : Transport)
    (hm : m.metrics = none) (hs : m.single = none)
    (hdays : insightsDays m p ≤ 93)
    (htr : tr.get_resp = ⟨[⟨"m1", [⟨7, some "t"⟩]⟩]⟩) :
    insightsCallOf m p = some InsightsCall.plain
    ∧ insightsGet m p tr = Except.error GetError.keyError := by
  have hnot : ¬ insightsDays m p > 31 * 3 := by omega
  constructor
  · unfold insightsCallOf
    rw [if_neg hnot, hm]
  · unfold insightsGet
    rw [if_neg hnot]
    simp only [hm, htr]
    simp [pivotDatasets, dataSet, dictSet, bucketKey, buildRows, mkRow,
      shapeResult, hs, Except.bind, Except.map, List.lookup]

/-- Witness for C4's theorem at a concrete fresh insights Selection. -/
theorem insights_no_metrics_keyerror_witness :
    insightsGet ⟨0, 86400, none, none⟩ ⟨true, some 0, some 86400, none, none⟩
      ⟨fun _ => [], ⟨[⟨"m1", [⟨7, some "t"⟩]⟩]⟩⟩
      = Except.error GetError.keyError :=
  (insights_no_metrics_keyerror ⟨0, 86400, none, none⟩
    ⟨true, some 0, some 86400, none, none⟩
    ⟨fun _ => [], ⟨[⟨"m1", [⟨7, some "t"⟩]⟩]⟩⟩
    rfl rfl (by decide) rfl).2

/-- C8 amended: iteration triggers `get()` on first consumption and
memoizes it on the instance — a second iteration pass issues no further
fetch and yields the same sequence — while indexing issues a fresh
(unmemoized) fetch on every access and never populates or reads the cache. -/
theorem iter_memoizes_getitem_refetches (data : List Int) (k : Nat)
    (s : SelAccess) :
    (iterSel data (iterSel data s).2).2.fetches = (iterSel data s).2.fetches
    ∧ (iterSel data (iterSel data s).2).1 = (iterSel data s).1
    ∧ (getitem data k s).2.fetches = s.fetches + 1
    ∧ (getitem data k s).2.res = s.res := by
  cases s with
  | mk res fetches =>
    cases res with
    | none => simp [iterSel, getitem, doGet]
    | some r => simp [iterSel, getitem, doGet]

/-- C9 counterexample: a proxied URL whose query string has `url` but no
`w` makes the `Picture` constructor raise a `KeyError` — construction is
not failure-free as claimed. -/
theorem picture_url_without_dims_raises :
    mkPicture "http://proxy/?url=x" [("url", ["x"])]
      = Except.error GetError.keyError := rfl

/-- C9 amended: the `Picture` constructor branches on the presence of the
`url` query parameter alone.  With no `url` parameter the whole string
becomes the origin and the dimensions stay unknown (recovery, no error);
with `url`, `w` and `h` all present, origin, width and height are extracted
from the query parameters; but with `url` present and `w` absent — or `w`
present and `h` absent — the constructor raises a `KeyError` instead of
recovering. -/
theorem picture_query_handling (raw : String)
    (qs : List (String × List String)) :
    (qs.lookup "url" = none →
      mkPicture raw qs
        = Except.ok ⟨raw, raw, none, none, (raw.splitOn "/").getLastD ""⟩)
    ∧ (∀ u us w ws hv hs, qs.lookup "url" = some (u :: us) →
        qs.lookup "w" = some (w :: ws) → qs.lookup "h" = some (hv :: hs) →
        mkPicture raw qs
          = Except.ok ⟨raw, u, some w, some hv, (u.splitOn "/").getLastD ""⟩)
    ∧ (∀ u us, qs.lookup "url" = some (u :: us) → qs.lookup "w" = none →
        mkPicture raw qs = Except.error GetError.keyError)
    ∧ (∀ u us w ws, qs.lookup "url" = some (u :: us) →
        qs.lookup "w" = some (w :: ws) → qs.lookup "h" = none →
        mkPicture raw qs = Except.error GetError.keyError) := by
  refine ⟨?_, ?_, ?_, ?_⟩
  · intro h
    simp [mkPicture, h]
  · intro u us w ws hv hs h1 h2 h3
    simp [mkPicture, qsIndex, h1, h2, h3, Except.bind]
  · intro u us h1 h2
    simp [mkPicture, qsIndex, h1, h2, Except.bind]
  · intro u us w ws h1 h2 h3
    simp [mkPicture, qsIndex, h1, h2, h3, Except.bind]

/-- Witness for C9's amended theorem: the fully-proxied form extracts
origin and both dimensions. -/
theorem picture_query_handling_witness :
    mkPicture "http://proxy/?x" [("url", ["o"]), ("w", ["10"]), ("h", ["20"])]
      = Except.ok ⟨"http://proxy/?x", "o", some "10", some "20",
          ("o".splitOn "/").getLastD ""⟩ :=
  (picture_query_handling "http://proxy/?x"
    [("url", ["o"]), ("w", ["10"]), ("h", ["20"])]).2.1
    "o" [] "10" [] "20" [] rfl rfl rfl

/-- A successful `shapeResult` that yields Rows can only have come from
`meta['single'] = False`. -/
theorem shapeResult_ok_rows (m : SelMeta) (rows : List RowT) (rs : List RowT)
    (h : shapeResult m rows = Except.ok (InsightsResult.rows rs)) :
    m.single = some false := by
  unfold shapeResult at h
  cases hs : m.single with
  | none => rw [hs] at h; cases h
  | some b =>
    cases b with
    | false => rfl
    | true =>
      rw [hs] at h
      cases hm : m.metrics with
      | none => rw [hm] at h; cases h
      | some ms =>
        rw [hm] at h
        cases ms with
        | nil => cases h
        | cons metric more =>
          simp only [List.head?_cons] at h
          cases he : extractMetric metric rows with
          | error e => rw [he] at h; simp [Except.map] at h
          | ok vs => rw [he] at h; simp [Except.map] at h

/-- The pipeline after the range check yields Rows only when
`meta['single'] = False`. -/
theorem insights_tail_rows_single_false (m : SelMeta) (fields : List String)
    (data : List (TimeKey × List (String × Int))) (rs : List RowT)
    (h : (if fields.Nodup then (buildRows fields data).bind (shapeResult m)
          else Except.error GetError.valueError)
        = Except.ok (InsightsResult.rows rs)) :
    m.single = some false := by
  by_cases hnd : fields.Nodup
  · rw [if_pos hnd] at h
    cases hb : buildRows fields data with
    | error e => rw [hb] at h; cases h
    | ok rows =>
      rw [hb] at h
      exact shapeResult_ok_rows m rows rs h
  · rw [if_neg hnd] at h; cases h

/-- The method `InsightsSelection.get` yields Rows only when `meta['single']` was set
to `False`. -/
theorem insightsGet_rows_single_false (m : SelMeta) (p : SelParams)
    (tr : Transport) (rs : List RowT)
    (h : insightsGet m p tr = Except.ok (InsightsResult.rows rs)) :
    m.single = some false := by
  unfold insightsGet at h
  by_cases hdays : insightsDays m p > 31 * 3
  · rw [if_pos hdays] at h; cases h
  · rw [if_neg hdays] at h
    exact insights_tail_rows_single_false m _ _ rs h

/-- C10 counterexample: a single-bare-metric selection whose metric dataset
has no value rows makes `get()` return the empty value list and
`serialize()` return `[]` without raising — the claim's universally
quantified "serialize() raises" fails on the empty case. -/
theorem serialize_single_empty_no_error :
    serializeSel ⟨0, 86400, some ["a"], some true⟩
      ⟨true, some 0, some 86400, none, none⟩
      ⟨fun _ => [⟨[⟨"a", []⟩]⟩], ⟨[]⟩⟩ = Except.ok [] := rfl

/-- C10 amended: with `meta['single'] = True`, `get()` never yields the Row
sequence (it yields the plain value list), and `serialize()` — which calls
`_asdict()` on every element — raises an `AttributeError` whenever that
value list is non-empty; the empty value list serializes to `[]` without
error. -/
theorem serialize_single_metric (m : SelMeta) (p : SelParams) (tr : Transport)
    (hs : m.single = some true) :
    (∀ rs, insightsGet m p tr ≠ Except.ok (InsightsResult.rows rs))
    ∧ (∀ v vs, insightsGet m p tr
          = Except.ok (InsightsResult.values (v :: vs)) →
        serializeSel m p tr = Except.error GetError.attributeError)
    ∧ (insightsGet m p tr = Except.ok (InsightsResult.values []) →
        serializeSel m p tr = Except.ok []) := by
  refine ⟨?_, ?_, ?_⟩
  · intro rs hrow
    have hfalse := insightsGet_rows_single_false m p tr rs hrow
    rw [hs] at hfalse
    cases hfalse
  · intro v vs hget
    unfold serializeSel
    rw [hget]
    rfl
  · intro hget
    unfold serializeSel
    rw [hget]
    rfl

/-- Witness for C10's amended theorem: one fetched value makes
`serialize()` raise the `AttributeError`. -/
theorem serialize_single_metric_witness :
    serializeSel ⟨0, 86400, some ["a"], some true⟩
      ⟨true, some 0, some 86400, none, none⟩
      ⟨fun _ => [⟨[⟨"a", [⟨42, some "t"⟩]⟩]⟩], ⟨[]⟩⟩
      = Except.error GetError.attributeError :=
  (serialize_single_metric ⟨0, 86400, some ["a"], some true⟩
    ⟨true, some 0, some 86400, none, none⟩
    ⟨fun _ => [⟨[⟨"a", [⟨42, some "t"⟩]⟩]⟩], ⟨[]⟩⟩ rfl).2.1 42 [] rfl

end FBInsights
